import Mathlib

/-!
Verification of the cpp-tree-sitter wrapper (src/include/cpp-tree-sitter.h).

The repository is a thin C++ wrapper over the external tree-sitter engine.
The wrapper code itself is embedded faithfully from the header.  The engine
(`ts_*` functions, declared in tree_sitter/api.h and not part of this
repository) is modelled from the specification's description of the engine
interface: a parse tree is a finite ordered tree of nodes carrying a symbol,
a named flag, error flags, a byte extent and an optional field name; a node
handle denotes a position (path) inside one tree, or is the distinguished
null node; a cursor holds a tree, the node it was created at (its origin)
and a path relative to that origin.

C++ `std::string_view` values are modelled as `List Char`;
`std::string_view::substr(pos, count)` throws when `pos > size()` and
otherwise returns the view of at most `min(count, size() - pos)` characters
starting at `pos`, which we model with `Option`.  `front()` on an empty view
is undefined behaviour, which we model by returning `none` from any wrapper
operation that evaluates `&v.front()` on an empty view `v`.
-/

namespace ts

/-- Modelled from the spec: the attributes the engine stores for one node of
a parse tree: numeric symbol id, named / missing / extra / error flags, the
byte extent covering the node's text, and the grammar field name the parent
production assigned to this child (empty when none). -/
structure NodeData where
  symbol : Nat
  named : Bool
  missing : Bool
  extra : Bool
  isErr : Bool
  startByte : Nat
  endByte : Nat
  field : List Char

/-- Modelled from the spec: the engine-owned parse tree, a finite ordered
tree of nodes. -/
inductive STree where
  | node (data : NodeData) (children : List STree)

def STree.data : STree → NodeData
  | .node d _ => d

def STree.children : STree → List STree
  | .node _ cs => cs

/-- Look up the subtree at a path of child indices; `none` when the path
leaves the tree. -/
def subtreeAt : List Nat → STree → Option STree
  | [], t => some t
  | i :: rest, t => ((STree.children t)[i]?).bind (subtreeAt rest)

/-- Number of children of the node at `path` in `root` (0 for an invalid
path). -/
def childCountAt (root : STree) (path : List Nat) : Nat :=
  match subtreeAt path root with
  | some t => t.children.length
  | none => 0

/-- Modelled from the spec: an engine node handle (TSNode): either the
distinguished null node, or a position (path of child indices) inside one
tree. -/
inductive TSNode where
  | null
  | pos (root : STree) (path : List Nat)

/-- Modelled from the spec: a node's identity is its position in its tree;
two navigations landing on the same position yield equal identifiers.  The
null node's id is the null value. -/
def ts_node_id : TSNode → Option (List Nat)
  | .null => none
  | .pos _ p => some p

abbrev NodeID := Option (List Nat)

def ts_node_is_null : TSNode → Bool
  | .null => true
  | .pos _ _ => false

def ts_node_is_named : TSNode → Bool
  | .null => false
  | .pos root path =>
      match subtreeAt path root with
      | some t => t.data.named
      | none => false

def ts_node_is_missing : TSNode → Bool
  | .null => false
  | .pos root path =>
      match subtreeAt path root with
      | some t => t.data.missing
      | none => false

def ts_node_child_count : TSNode → Nat
  | .null => 0
  | .pos root path => childCountAt root path

/-- Modelled from the spec: the engine's child accessor returns the child at
the given index in the all-children ordering, or the null node when the
index is out of range. -/
def ts_node_child : TSNode → Nat → TSNode
  | .null, _ => .null
  | .pos root path, i =>
      if i < childCountAt root path then .pos root (path ++ [i]) else .null

/-- Indices (in the all-children ordering) of the named children. -/
def namedChildIndices (cs : List STree) : List Nat :=
  (List.range cs.length).filter fun i =>
    match cs[i]? with
    | some c => c.data.named
    | none => false

def ts_node_named_child_count : TSNode → Nat
  | .null => 0
  | .pos root path =>
      match subtreeAt path root with
      | some t => (namedChildIndices t.children).length
      | none => 0

/-- Modelled from the spec: the engine's named-child accessor returns the
i-th named child (named children are the subsequence of all children whose
named flag is set), or the null node when out of range. -/
def ts_node_named_child : TSNode → Nat → TSNode
  | .null, _ => .null
  | .pos root path, i =>
      match subtreeAt path root with
      | some t =>
          match (namedChildIndices t.children)[i]? with
          | some j => .pos root (path ++ [j])
          | none => .null
      | none => .null

def ts_node_start_byte : TSNode → Nat
  | .null => 0
  | .pos root path =>
      match subtreeAt path root with
      | some t => t.data.startByte
      | none => 0

def ts_node_end_byte : TSNode → Nat
  | .null => 0
  | .pos root path =>
      match subtreeAt path root with
      | some t => t.data.endByte
      | none => 0

/-- Modelled from the spec: the engine's field lookup returns the first
child to which the parent production assigned the given field name, or the
null node when no child has that field. -/
def ts_node_child_by_field_name (n : TSNode) (name : List Char) : TSNode :=
  match n with
  | .null => .null
  | .pos root path =>
      match subtreeAt path root with
      | some t =>
          match (namedChildIndices t.children).find? (fun j =>
            match t.children[j]? with
            | some c => c.data.field = name
            | none => false) with
          | some j => .pos root (path ++ [j])
          | none => .null
      | none => .null

/-- Modelled from the spec: a grammar descriptor is an immutable symbol
table; entry `i` holds the name of symbol id `i` and whether it names a
named rule (as opposed to a literal / anonymous token). -/
structure TSLanguage where
  symbols : List (List Char × Bool)

def ts_language_symbol_count (l : TSLanguage) : Nat :=
  l.symbols.length

/-- Modelled from the spec: the stable grammar-defined name for a symbol id;
the engine signals an out-of-range id (there is no such symbol) rather than
returning a name. -/
def ts_language_symbol_name (l : TSLanguage) (symbol : Nat) : Option (List Char) :=
  (l.symbols[symbol]?).map Prod.fst

/-- Modelled from the spec: inverse symbol lookup; returns the id of the
first symbol with the given name and namedness, or the sentinel value 0
("no such symbol") when there is no match. -/
def ts_language_symbol_for_name (l : TSLanguage) (name : List Char)
    (isNamed : Bool) : Nat :=
  match (List.range l.symbols.length).find? (fun i =>
    match l.symbols[i]? with
    | some p => p.1 = name && p.2 = isNamed
    | none => false) with
  | some i => i
  | none => 0

/-- The sentinel "no such symbol" value returned by inverse lookup. -/
def noSuchSymbol : Nat := 0

/-- Model of C++ std::string_view::substr(pos, count): throws (modelled as
`none`) when `pos > size()`; otherwise returns the view of at most
`min(count, size() - pos)` characters starting at `pos`. -/
def substr (s : List Char) (posn count : Nat) : Option (List Char) :=
  if posn ≤ s.length then some ((s.drop posn).take count) else none

/-- An inclusive range representation (cpp-tree-sitter.h, struct Extent). -/
structure Extent (T : Type) where
  start : T
  «end» : T

/-- Error raised by `Language.getSymbolName` on an out-of-range symbol id. -/
inductive SymbolError where
  | InvalidSymbol

/-- Wrapper ts::Language (cpp-tree-sitter.h lines 59-92). -/
structure Language where
  impl : TSLanguage

def Language.getNumSymbols (l : Language) : Nat :=
  ts_language_symbol_count l.impl

def Language.getSymbolName (l : Language) (symbol : Nat) :
    Except SymbolError (List Char) :=
  match ts_language_symbol_name l.impl symbol with
  | some name => .ok name
  | none => .error .InvalidSymbol

/-- Wrapper Language::getSymbolForName passes `&name.front()` and
`name.size()` to the engine; `front()` on an empty view is undefined
behaviour, modelled as `none`. -/
def Language.getSymbolForName (l : Language) (name : List Char)
    (isNamed : Bool) : Option Nat :=
  match name with
  | [] => none
  | _ :: _ => some (ts_language_symbol_for_name l.impl name isNamed)

/-- Wrapper ts::Node (cpp-tree-sitter.h lines 97-245). -/
structure Node where
  impl : TSNode

def Node.isNull (n : Node) : Bool :=
  ts_node_is_null n.impl

def Node.isNamed (n : Node) : Bool :=
  ts_node_is_named n.impl

def Node.isMissing (n : Node) : Bool :=
  ts_node_is_missing n.impl

def Node.getNumChildren (n : Node) : Nat :=
  ts_node_child_count n.impl

def Node.getChild (n : Node) (position : Nat) : Node :=
  ⟨ts_node_child n.impl position⟩

def Node.getNumNamedChildren (n : Node) : Nat :=
  ts_node_named_child_count n.impl

def Node.getNamedChild (n : Node) (position : Nat) : Node :=
  ⟨ts_node_named_child n.impl position⟩

/-- Wrapper Node::getChildByFieldName passes `&name.front()` and
`name.size()` to the engine; `front()` on an empty view is undefined
behaviour, modelled as `none`. -/
def Node.getChildByFieldName (n : Node) (name : List Char) : Option Node :=
  match name with
  | [] => none
  | _ :: _ => some ⟨ts_node_child_by_field_name n.impl name⟩

def Node.getID (n : Node) : NodeID :=
  ts_node_id n.impl

def Node.getByteRange (n : Node) : Extent Nat :=
  ⟨ts_node_start_byte n.impl, ts_node_end_byte n.impl⟩

/-- Wrapper Node::getSourceRange: slices the caller-supplied buffer with
`source.substr(extents.start, extents.end - extents.start)`. -/
def Node.getSourceRange (n : Node) (source : List Char) : Option (List Char) :=
  substr source n.getByteRange.start (n.getByteRange.«end» - n.getByteRange.start)

/-- Modelled from the spec: an engine cursor (TSTreeCursor) holds the tree,
the node it was created at or most recently reset to (its origin), and the
path from the origin to the current node.  A cursor cannot move above its
origin nor to siblings of its origin. -/
structure TSTreeCursor where
  root : STree
  origin : List Nat
  rel : List Nat

/-- Modelled from the spec: creating a cursor positions it at the given
node; creating one from the null node is undefined behaviour, modelled as
`none`. -/
def ts_tree_cursor_new : TSNode → Option TSTreeCursor
  | .null => none
  | .pos root path => some ⟨root, path, []⟩

def ts_tree_cursor_current_node (c : TSTreeCursor) : TSNode :=
  .pos c.root (c.origin ++ c.rel)

/-- Modelled from the spec: move to the parent; fails (returning the state
unchanged) at the cursor's origin. -/
def ts_tree_cursor_goto_parent (c : TSTreeCursor) : Bool × TSTreeCursor :=
  match c.rel with
  | [] => (false, c)
  | _ :: _ => (true, { c with rel := c.rel.dropLast })

/-- Modelled from the spec: move to the first child; fails when the current
node has no children. -/
def ts_tree_cursor_goto_first_child (c : TSTreeCursor) : Bool × TSTreeCursor :=
  if 0 < childCountAt c.root (c.origin ++ c.rel) then
    (true, { c with rel := c.rel ++ [0] })
  else
    (false, c)

/-- Modelled from the spec: move to the last child; fails when the current
node has no children. -/
def ts_tree_cursor_goto_last_child (c : TSTreeCursor) : Bool × TSTreeCursor :=
  match childCountAt c.root (c.origin ++ c.rel) with
  | 0 => (false, c)
  | j + 1 => (true, { c with rel := c.rel ++ [j] })

/-- Modelled from the spec: move to the next sibling; fails at the origin
and at the last child of the parent. -/
def ts_tree_cursor_goto_next_sibling (c : TSTreeCursor) : Bool × TSTreeCursor :=
  match c.rel.getLast? with
  | none => (false, c)
  | some i =>
      if i + 1 < childCountAt c.root (c.origin ++ c.rel.dropLast) then
        (true, { c with rel := c.rel.dropLast ++ [i + 1] })
      else
        (false, c)

/-- Modelled from the spec: move to the previous sibling; fails at the
origin and at the first child of the parent. -/
def ts_tree_cursor_goto_previous_sibling (c : TSTreeCursor) :
    Bool × TSTreeCursor :=
  match c.rel.getLast? with
  | none => (false, c)
  | some 0 => (false, c)
  | some (i + 1) => (true, { c with rel := c.rel.dropLast ++ [i] })

/-- Wrapper ts::Cursor (cpp-tree-sitter.h lines 296-376).  The C++ class
mutates its cursor in place and returns a success flag; we model each
movement as returning the flag together with the state after the call. -/
structure Cursor where
  impl : TSTreeCursor

def Cursor.getCurrentNode (c : Cursor) : Node :=
  ⟨ts_tree_cursor_current_node c.impl⟩

def Cursor.gotoParent (c : Cursor) : Bool × Cursor :=
  ((ts_tree_cursor_goto_parent c.impl).1, ⟨(ts_tree_cursor_goto_parent c.impl).2⟩)

def Cursor.gotoNextSibling (c : Cursor) : Bool × Cursor :=
  ((ts_tree_cursor_goto_next_sibling c.impl).1,
   ⟨(ts_tree_cursor_goto_next_sibling c.impl).2⟩)

def Cursor.gotoPreviousSibling (c : Cursor) : Bool × Cursor :=
  ((ts_tree_cursor_goto_previous_sibling c.impl).1,
   ⟨(ts_tree_cursor_goto_previous_sibling c.impl).2⟩)

def Cursor.gotoFirstChild (c : Cursor) : Bool × Cursor :=
  ((ts_tree_cursor_goto_first_child c.impl).1,
   ⟨(ts_tree_cursor_goto_first_child c.impl).2⟩)

def Cursor.gotoLastChild (c : Cursor) : Bool × Cursor :=
  ((ts_tree_cursor_goto_last_child c.impl).1,
   ⟨(ts_tree_cursor_goto_last_child c.impl).2⟩)

/-- Wrapper Node::getCursor (creates a cursor positioned at the node). -/
def Node.getCursor (n : Node) : Option Cursor :=
  (ts_tree_cursor_new n.impl).map Cursor.mk

/-- The five cursor movement operations of the wrapper, as one type, so a
single statement can quantify over them. -/
inductive CursorMove where
  | parent
  | firstChild
  | lastChild
  | nextSibling
  | prevSibling

def CursorMove.apply : CursorMove → Cursor → Bool × Cursor
  | .parent, c => c.gotoParent
  | .firstChild, c => c.gotoFirstChild
  | .lastChild, c => c.gotoLastChild
  | .nextSibling, c => c.gotoNextSibling
  | .prevSibling, c => c.gotoPreviousSibling

/-- Modelled from the spec: the engine-owned tree's root node is the
position at the empty path. -/
def ts_tree_root_node (t : STree) : TSNode :=
  .pos t []

/-- Wrapper ts::Tree (cpp-tree-sitter.h lines 248-271). -/
structure Tree where
  impl : STree

def Tree.getRootNode (t : Tree) : Node :=
  ⟨ts_tree_root_node t.impl⟩

/-- Modelled from the spec: the engine parser is total — parsing any buffer
produces a tree (a syntactically invalid buffer yields a tree containing
error or missing nodes, never a failure return). -/
structure TSParser where
  parse : List Char → STree

def ts_parser_parse_string (p : TSParser) (buffer : List Char) : STree :=
  p.parse buffer

/-- Wrapper ts::Parser (cpp-tree-sitter.h lines 274-293).  parseString
passes `&buffer.front()` and `buffer.size()` to the engine; `front()` on an
empty view is undefined behaviour, modelled as `none`. -/
structure Parser where
  impl : TSParser

def Parser.parseString (p : Parser) (buffer : List Char) : Option Tree :=
  match buffer with
  | [] => none
  | _ :: _ => some ⟨ts_parser_parse_string p.impl buffer⟩

/-- Wrapper ChildIterator (cpp-tree-sitter.h lines 395-431): holds the
cursor and the atEnd flag. -/
structure ChildIterator where
  cursor : Cursor
  atEnd : Bool

/-- The ChildIterator constructor: `cursor{node.getCursor()},
atEnd{!cursor.gotoFirstChild()}`. -/
def ChildIterator.init (node : Node) : Option ChildIterator :=
  match node.getCursor with
  | none => none
  | some c =>
      match c.gotoFirstChild with
      | (moved, c1) => some ⟨c1, !moved⟩

/-- ChildIterator::operator* : the node under the cursor. -/
def ChildIterator.deref (it : ChildIterator) : Node :=
  it.cursor.getCurrentNode

/-- ChildIterator::operator++ : `atEnd = !cursor.gotoNextSibling()`. -/
def ChildIterator.inc (it : ChildIterator) : ChildIterator :=
  match it.cursor.gotoNextSibling with
  | (moved, c1) => ⟨c1, !moved⟩

/-- The range-for loop over a Children value: while not atEnd, yield the
current node and advance.  The loop of the source has no fuel parameter; the
fuel only bounds the unrolling and any fuel at least the number of children
is enough (theorem C3). -/
def ChildIterator.collect : Nat → ChildIterator → List Node
  | 0, _ => []
  | fuel + 1, it =>
      if it.atEnd then [] else it.deref :: ChildIterator.collect fuel it.inc

/-- Wrapper Children (cpp-tree-sitter.h lines 434-441): range adaptor over
the direct children of a node. -/
structure Children where
  node : Node

/-- The sequence a range-for over `Children` produces. -/
def Children.toList (ch : Children) (fuel : Nat) : Option (List Node) :=
  (ChildIterator.init ch.node).map (ChildIterator.collect fuel)

/-- The sequence the spec describes: `getChild(0), ..., getChild(k-1)` where
`k = getNumChildren()`. -/
def specChildSequence (n : Node) : List Node :=
  (List.range n.getNumChildren).map n.getChild

/-- The slice `buffer[s:e]` the spec's round-trip property speaks about. -/
def sliceSpec (buffer : List Char) (s e : Nat) : List Char :=
  (buffer.drop s).take (e - s)

/-! Concrete structures used by the witnesses: a two-child tree (one named
child, one anonymous token) and a two-symbol grammar. -/

def demoLeafA : STree :=
  .node ⟨1, true, false, false, false, 0, 1, ['l']⟩ []

def demoLeafB : STree :=
  .node ⟨2, false, false, false, false, 1, 2, []⟩ []

def demoTree : STree :=
  .node ⟨3, true, false, false, false, 0, 2, []⟩ [demoLeafA, demoLeafB]

def demoRootNode : Node :=
  ⟨.pos demoTree []⟩

def demoLangW : Language :=
  ⟨⟨[([], false), (['e','x','p','r'], true)]⟩⟩

def demoMissingName : List Char :=
  ['n','o','n','e','x','i','s','t','e','n','t','_','r','u','l','e','_','x','y','z']

/-- Claim C2: for every Node n whose byte range is [s, e) over the buffer
that was parsed (so s ≤ e and e ≤ buffer.length), n.getSourceRange(buffer)
returns exactly the slice buffer[s:e]. -/
theorem C2_getSourceRange_roundtrip (n : Node) (buffer : List Char)
    (s e : Nat) (hr : n.getByteRange = ⟨s, e⟩) (hse : s ≤ e)
    (he : e ≤ buffer.length) :
    n.getSourceRange buffer = some (sliceSpec buffer s e) := by
  simp [Node.getSourceRange, substr, sliceSpec, hr, Nat.le_trans hse he]

/-- Witness for C2 at a concrete node and buffer. -/
theorem C2_getSourceRange_roundtrip_witness :
    Node.getSourceRange ⟨.pos demoTree [0]⟩ ['a', 'b'] =
      some (sliceSpec ['a', 'b'] 0 1) :=
  C2_getSourceRange_roundtrip ⟨.pos demoTree [0]⟩ ['a', 'b'] 0 1 rfl
    (by decide) (by decide)

/-- Claim C9: for every Node n and buffer src with byteRange.start ≤
src.length, getSourceRange src is well-defined and returns the in-bounds
slice of src starting at byteRange.start whose length is the minimum of
(end - start) and (src.length - start); a mismatched shorter buffer yields a
clamped slice, never an out-of-bounds access. -/
theorem C9_getSourceRange_clamped (n : Node) (src : List Char) (s e : Nat)
    (hr : n.getByteRange = ⟨s, e⟩) (hs : s ≤ src.length) :
    n.getSourceRange src = some (sliceSpec src s e) ∧
      (sliceSpec src s e).length = min (e - s) (src.length - s) := by
  constructor
  · simp [Node.getSourceRange, substr, sliceSpec, hr, hs]
  · simp [sliceSpec, List.length_take, List.length_drop]

/-- Witness for C9: the root covers bytes [0, 2) but the supplied buffer has
length 1; the slice is clamped to length min 2 1 = 1. -/
theorem C9_getSourceRange_clamped_witness :
    Node.getSourceRange demoRootNode ['a'] = some (sliceSpec ['a'] 0 2) ∧
      (sliceSpec ['a'] 0 2).length = min (2 - 0) (1 - 0) :=
  C9_getSourceRange_clamped demoRootNode ['a'] 0 2 rfl (by decide)

/-- Claim C10: getSymbolForName and getChildByFieldName pass
&name.front() to the engine, so each is well-defined exactly when name is
non-empty; the empty string violates the precondition. -/
theorem C10_front_requires_nonempty (l : Language) (name : List Char)
    (isNamed : Bool) (n : Node) :
    ((l.getSymbolForName name isNamed).isSome ↔ name ≠ []) ∧
      ((n.getChildByFieldName name).isSome ↔ name ≠ []) := by
  cases name <;>
    simp [Language.getSymbolForName, Node.getChildByFieldName]

/-- Witness for C10 at a one-character name and the empty name. -/
theorem C10_front_requires_nonempty_witness :
    ((demoLangW.getSymbolForName ['x'] true).isSome ↔
        (['x'] : List Char) ≠ []) ∧
      ((demoRootNode.getChildByFieldName ['x']).isSome ↔
        (['x'] : List Char) ≠ []) :=
  C10_front_requires_nonempty demoLangW ['x'] true demoRootNode

/-- Claim C5: getSymbolName fails with InvalidSymbol on every out-of-range
symbol id and returns the grammar-defined name on every in-range id. -/
theorem C5_getSymbolName_invalid_or_name (l : Language) (symbol : Nat) :
    (l.getNumSymbols ≤ symbol →
        l.getSymbolName symbol = .error .InvalidSymbol) ∧
      ∀ h : symbol < l.getNumSymbols,
        l.getSymbolName symbol = .ok (l.impl.symbols.get ⟨symbol, h⟩).1 := by
  constructor
  · intro hle
    have hnone : l.impl.symbols[symbol]? = none :=
      List.getElem?_eq_none hle
    simp [Language.getSymbolName, ts_language_symbol_name, hnone]
  · intro h
    have hsome : l.impl.symbols[symbol]? = some (l.impl.symbols.get ⟨symbol, h⟩) :=
      List.getElem?_eq_getElem h
    simp [Language.getSymbolName, ts_language_symbol_name, hsome]

/-- Witness for C5 on the two-symbol demo grammar: id 5 is out of range, id
1 names the named rule "expr". -/
theorem C5_getSymbolName_invalid_or_name_witness :
    demoLangW.getSymbolName 5 = .error .InvalidSymbol ∧
      demoLangW.getSymbolName 1 = .ok ['e','x','p','r'] :=
  ⟨(C5_getSymbolName_invalid_or_name demoLangW 5).1 (by decide),
   (C5_getSymbolName_invalid_or_name demoLangW 1).2 (by decide)⟩

/-- Claim C6: for every non-empty name matching no symbol of the grammar,
getSymbolForName returns the "no such symbol" sentinel (and, being a total
lookup, raises nothing). -/
theorem C6_getSymbolForName_sentinel (l : Language) (name : List Char)
    (isNamed : Bool) (hne : name ≠ [])
    (hmiss : ∀ p ∈ l.impl.symbols, ¬(p.1 = name ∧ p.2 = isNamed)) :
    l.getSymbolForName name isNamed = some noSuchSymbol := by
  cases name with
  | nil => exact absurd rfl hne
  | cons a as =>
      have hfind :
          (List.range l.impl.symbols.length).find? (fun i =>
            match l.impl.symbols[i]? with
            | some p => p.1 = a :: as && p.2 = isNamed
            | none => false) = none := by
        rw [List.find?_eq_none]
        intro i hi
        have hlt : i < l.impl.symbols.length := List.mem_range.mp hi
        have hsome : l.impl.symbols[i]? = some (l.impl.symbols.get ⟨i, hlt⟩) :=
          List.getElem?_eq_getElem hlt
        have hmem : l.impl.symbols.get ⟨i, hlt⟩ ∈ l.impl.symbols :=
          List.get_mem _ _ hlt
        have := hmiss _ hmem
        simp only [hsome]
        simp only [Bool.and_eq_true, decide_eq_true_eq]
        intro hcon
        exact this ⟨hcon.1, hcon.2⟩
      simp [Language.getSymbolForName, ts_language_symbol_for_name, hfind,
        noSuchSymbol]

/-- Witness for C6: the scenario name "nonexistent_rule_xyz" misses every
symbol of the demo grammar and yields the sentinel. -/
theorem C6_getSymbolForName_sentinel_witness :
    demoLangW.getSymbolForName demoMissingName true = some noSuchSymbol :=
  C6_getSymbolForName_sentinel demoLangW demoMissingName true (by decide)
    (by decide)

/-- A failed gotoParent leaves the engine cursor unchanged. -/
theorem tsc_parent_unmoved (c : TSTreeCursor)
    (h : (ts_tree_cursor_goto_parent c).1 = false) :
    (ts_tree_cursor_goto_parent c).2 = c := by
  cases hrel : c.rel with
  | nil => simp [ts_tree_cursor_goto_parent, hrel]
  | cons x xs => simp [ts_tree_cursor_goto_parent, hrel] at h

/-- A failed gotoFirstChild leaves the engine cursor unchanged. -/
theorem tsc_first_child_unmoved (c : TSTreeCursor)
    (h : (ts_tree_cursor_goto_first_child c).1 = false) :
    (ts_tree_cursor_goto_first_child c).2 = c := by
  by_cases hk : 0 < childCountAt c.root (c.origin ++ c.rel)
  · simp [ts_tree_cursor_goto_first_child, hk] at h
  · simp [ts_tree_cursor_goto_first_child, hk]

/-- A failed gotoLastChild leaves the engine cursor unchanged. -/
theorem tsc_last_child_unmoved (c : TSTreeCursor)
    (h : (ts_tree_cursor_goto_last_child c).1 = false) :
    (ts_tree_cursor_goto_last_child c).2 = c := by
  cases hk : childCountAt c.root (c.origin ++ c.rel) with
  | zero => simp [ts_tree_cursor_goto_last_child, hk]
  | succ j => simp [ts_tree_cursor_goto_last_child, hk] at h

/-- A failed gotoNextSibling leaves the engine cursor unchanged. -/
theorem tsc_next_sibling_unmoved (c : TSTreeCursor)
    (h : (ts_tree_cursor_goto_next_sibling c).1 = false) :
    (ts_tree_cursor_goto_next_sibling c).2 = c := by
  cases hl : c.rel.getLast? with
  | none => simp [ts_tree_cursor_goto_next_sibling, hl]
  | some i =>
      by_cases hk : i + 1 < childCountAt c.root (c.origin ++ c.rel.dropLast)
      · simp [ts_tree_cursor_goto_next_sibling, hl, hk] at h
      · simp [ts_tree_cursor_goto_next_sibling, hl, hk]

/-- A failed gotoPreviousSibling leaves the engine cursor unchanged. -/
theorem tsc_prev_sibling_unmoved (c : TSTreeCursor)
    (h : (ts_tree_cursor_goto_previous_sibling c).1 = false) :
    (ts_tree_cursor_goto_previous_sibling c).2 = c := by
  cases hl : c.rel.getLast? with
  | none => simp [ts_tree_cursor_goto_previous_sibling, hl]
  | some i =>
      cases i with
      | zero => simp [ts_tree_cursor_goto_previous_sibling, hl]
      | succ j => simp [ts_tree_cursor_goto_previous_sibling, hl] at h

/-- Claim C4: for every Cursor and each of the five movement operations, a
false return leaves the cursor unmoved: getCurrentNode afterwards is
identity-equal (same getID) to getCurrentNode before the call. -/
theorem C4_failed_move_leaves_cursor (c : Cursor) (m : CursorMove)
    (h : (m.apply c).1 = false) :
    (((m.apply c).2).getCurrentNode).getID = (c.getCurrentNode).getID := by
  cases m with
  | parent =>
      simp only [CursorMove.apply, Cursor.gotoParent] at h ⊢
      rw [tsc_parent_unmoved c.impl h]
  | firstChild =>
      simp only [CursorMove.apply, Cursor.gotoFirstChild] at h ⊢
      rw [tsc_first_child_unmoved c.impl h]
  | lastChild =>
      simp only [CursorMove.apply, Cursor.gotoLastChild] at h ⊢
      rw [tsc_last_child_unmoved c.impl h]
  | nextSibling =>
      simp only [CursorMove.apply, Cursor.gotoNextSibling] at h ⊢
      rw [tsc_next_sibling_unmoved c.impl h]
  | prevSibling =>
      simp only [CursorMove.apply, Cursor.gotoPreviousSibling] at h ⊢
      rw [tsc_prev_sibling_unmoved c.impl h]

/-- Witness for C4: gotoParent fails at a cursor's origin and leaves it
there. -/
theorem C4_failed_move_leaves_cursor_witness :
    (CursorMove.parent.apply ⟨⟨demoTree, [], []⟩⟩).1 = false ∧
      (((CursorMove.parent.apply ⟨⟨demoTree, [], []⟩⟩).2).getCurrentNode).getID =
        ((⟨⟨demoTree, [], []⟩⟩ : Cursor).getCurrentNode).getID :=
  ⟨rfl, C4_failed_move_leaves_cursor ⟨⟨demoTree, [], []⟩⟩ .parent rfl⟩

/-- Claim C7: starting a cursor at node n, a successful gotoFirstChild
followed by gotoParent returns to a node identity-equal (same getID) to n. -/
theorem C7_firstChild_parent_roundtrip (root : STree) (p : List Nat)
    (c c1 c2 : Cursor) (b2 : Bool)
    (h0 : Node.getCursor ⟨.pos root p⟩ = some c)
    (h1 : c.gotoFirstChild = (true, c1))
    (h2 : c1.gotoParent = (b2, c2)) :
    (c2.getCurrentNode).getID = (Node.mk (.pos root p)).getID := by
  have hc : c = ⟨⟨root, p, []⟩⟩ := by
    simp [Node.getCursor, ts_tree_cursor_new] at h0
    exact h0.symm
  subst hc
  by_cases hk : 0 < childCountAt root p
  · have hc1 : c1 = ⟨⟨root, p, [0]⟩⟩ := by
      simp [Cursor.gotoFirstChild, ts_tree_cursor_goto_first_child, hk] at h1
      exact h1.symm
    subst hc1
    have hc2 : c2 = ⟨⟨root, p, []⟩⟩ := by
      simp [Cursor.gotoParent, ts_tree_cursor_goto_parent] at h2
      exact h2.2.symm
    subst hc2
    simp [Cursor.getCurrentNode, ts_tree_cursor_current_node, Node.getID,
      ts_node_id]
  · simp [Cursor.gotoFirstChild, ts_tree_cursor_goto_first_child, hk] at h1

/-- Witness for C7 on the demo tree's root. -/
theorem C7_firstChild_parent_roundtrip_witness :
    ((⟨⟨demoTree, [], []⟩⟩ : Cursor).getCurrentNode).getID =
      (Node.mk (.pos demoTree [])).getID :=
  C7_firstChild_parent_roundtrip demoTree [] ⟨⟨demoTree, [], []⟩⟩
    ⟨⟨demoTree, [], [0]⟩⟩ ⟨⟨demoTree, [], []⟩⟩ true rfl rfl rfl

/-- A parser whose engine returns the demo tree for every buffer. -/
def demoParser : Parser :=
  ⟨⟨fun _ => demoTree⟩⟩

/-- Claim C1 (code_bug record): for every non-empty buffer, parseString
returns a Tree whose root is non-null; but on the empty buffer the wrapper
evaluates `&buffer.front()` on an empty view (undefined behaviour, modelled
as `none`), contradicting the spec's "empty buffer is valid input". -/
theorem C1_parseString_root_nonnull_empty_undefined :
    (∀ (p : Parser) (buffer : List Char), buffer ≠ [] →
        ∃ t, p.parseString buffer = some t ∧ (t.getRootNode).isNull = false) ∧
      ∀ p : Parser, p.parseString [] = none := by
  constructor
  · intro p buffer hne
    cases buffer with
    | nil => exact absurd rfl hne
    | cons a as =>
        exact ⟨⟨ts_parser_parse_string p.impl (a :: as)⟩, rfl, rfl⟩
  · intro p
    rfl

/-- Witness for C1 at a concrete parser: a one-byte buffer parses to a tree
with a non-null root, while the empty buffer hits the front() precondition. -/
theorem C1_parseString_root_nonnull_empty_undefined_witness :
    (∃ t, demoParser.parseString ['a'] = some t ∧
        (t.getRootNode).isNull = false) ∧
      demoParser.parseString [] = none :=
  ⟨C1_parseString_root_nonnull_empty_undefined.1 demoParser ['a'] (by decide),
   C1_parseString_root_nonnull_empty_undefined.2 demoParser⟩

/-- Looking up a path extended by one child index descends through the
subtree at the path and then to that child. -/
theorem subtreeAt_append (p q : List Nat) (root : STree) :
    subtreeAt (p ++ q) root = (subtreeAt p root).bind (subtreeAt q) := by
  induction p generalizing root with
  | nil => simp [subtreeAt]
  | cons i p ih => simp [subtreeAt, ih, Option.bind_assoc]

theorem subtreeAt_child (p : List Nat) (j : Nat) (root t : STree)
    (h : subtreeAt p root = some t) :
    subtreeAt (p ++ [j]) root = t.children[j]? := by
  rw [subtreeAt_append, h]
  simp [subtreeAt]

/-- There are at most as many named-child indices as children. -/
theorem namedChildIndices_length_le (cs : List STree) :
    (namedChildIndices cs).length ≤ cs.length := by
  unfold namedChildIndices
  exact le_trans (List.length_filter_le _ _) (le_of_eq (List.length_range _))

/-- Every named-child index is the index of a child whose named flag is
set. -/
theorem namedChildIndices_mem (cs : List STree) (j : Nat)
    (h : j ∈ namedChildIndices cs) :
    ∃ hj : j < cs.length, (cs.get ⟨j, hj⟩).data.named = true := by
  unfold namedChildIndices at h
  rw [List.mem_filter] at h
  obtain ⟨hr, hp⟩ := h
  have hj : j < cs.length := List.mem_range.mp hr
  refine ⟨hj, ?_⟩
  have hsome : cs[j]? = some (cs.get ⟨j, hj⟩) := List.getElem?_eq_getElem hj
  simpa [hsome] using hp

/-- Claim C8: for every Node, getNumNamedChildren ≤ getNumChildren, and
each getNamedChild(i) with i in range also appears at some index of the
all-children sequence and has isNamed true. -/
theorem C8_named_children_subsequence (n : Node) :
    n.getNumNamedChildren ≤ n.getNumChildren ∧
      ∀ i, i < n.getNumNamedChildren →
        ∃ j, j < n.getNumChildren ∧ n.getNamedChild i = n.getChild j ∧
          (n.getNamedChild i).isNamed = true := by
  obtain ⟨impl⟩ := n
  cases impl with
  | null =>
      refine ⟨Nat.le_refl 0, ?_⟩
      intro i hi
      simp [Node.getNumNamedChildren, ts_node_named_child_count] at hi
  | pos root path =>
      cases hsub : subtreeAt path root with
      | none =>
          constructor
          · simp [Node.getNumNamedChildren, Node.getNumChildren,
              ts_node_named_child_count, ts_node_child_count, childCountAt,
              hsub]
          · intro i hi
            simp [Node.getNumNamedChildren, ts_node_named_child_count,
              hsub] at hi
      | some t =>
          have hnum : Node.getNumChildren ⟨.pos root path⟩ =
              t.children.length := by
            simp [Node.getNumChildren, ts_node_child_count, childCountAt, hsub]
          have hnamed : Node.getNumNamedChildren ⟨.pos root path⟩ =
              (namedChildIndices t.children).length := by
            simp [Node.getNumNamedChildren, ts_node_named_child_count, hsub]
          constructor
          · rw [hnum, hnamed]
            exact namedChildIndices_length_le t.children
          · intro i hi
            rw [hnamed] at hi
            have hjm : (namedChildIndices t.children).get ⟨i, hi⟩ ∈
                namedChildIndices t.children := List.get_mem _ _ hi
            obtain ⟨hj, hnm⟩ := namedChildIndices_mem _ _ hjm
            have hidx : (namedChildIndices t.children)[i]? =
                some ((namedChildIndices t.children).get ⟨i, hi⟩) :=
              List.getElem?_eq_getElem hi
            have hj2 : (namedChildIndices t.children)[i] < t.children.length :=
              hj
            have hnm2 :
                (t.children[(namedChildIndices t.children)[i]]).data.named =
                  true := hnm
            have hchild : subtreeAt
                (path ++ [(namedChildIndices t.children)[i]]) root =
                some (t.children[(namedChildIndices t.children)[i]]) := by
              rw [subtreeAt_child path _ root t hsub]
              exact List.getElem?_eq_getElem hj2
            refine ⟨(namedChildIndices t.children).get ⟨i, hi⟩, ?_, ?_, ?_⟩
            · rw [hnum]; exact hj
            · simp [Node.getNamedChild, ts_node_named_child, hsub, hidx,
                Node.getChild, ts_node_child, childCountAt, hj2]
            · simp [Node.getNamedChild, ts_node_named_child, hsub, hidx,
                Node.isNamed, ts_node_is_named, hchild, hnm2]

/-- Witness for C8: the demo root has one named child among its two
children. -/
theorem C8_named_children_subsequence_witness :
    demoRootNode.getNumNamedChildren ≤ demoRootNode.getNumChildren ∧
      ∃ j, j < demoRootNode.getNumChildren ∧
        demoRootNode.getNamedChild 0 = demoRootNode.getChild j ∧
        (demoRootNode.getNamedChild 0).isNamed = true :=
  ⟨(C8_named_children_subsequence demoRootNode).1,
   (C8_named_children_subsequence demoRootNode).2 0 (by decide)⟩

/-- An iterator that is atEnd yields nothing, whatever the fuel. -/
theorem collect_atEnd (fuel : Nat) (it : ChildIterator) (h : it.atEnd = true) :
    ChildIterator.collect fuel it = [] := by
  cases fuel with
  | zero => rfl
  | succ f => simp [ChildIterator.collect, h]

/-- Running the iterator from the i-th child of the node at path p yields
the children i, i+1, ..., k-1 in order, provided the fuel covers the
remaining siblings. -/
theorem collect_sibling_run (root : STree) (p : List Nat) (t : STree)
    (hsub : subtreeAt p root = some t) :
    ∀ fuel i : Nat, i < t.children.length → t.children.length - i ≤ fuel →
      ChildIterator.collect fuel ⟨⟨⟨root, p, [i]⟩⟩, false⟩ =
        (List.range' i (t.children.length - i)).map
          (fun j => Node.mk (.pos root (p ++ [j]))) := by
  have hcc : childCountAt root p = t.children.length := by
    simp [childCountAt, hsub]
  intro fuel
  induction fuel with
  | zero => intro i hi hf; omega
  | succ f ih =>
      intro i hi hf
      have hstep : ChildIterator.collect (f + 1) ⟨⟨⟨root, p, [i]⟩⟩, false⟩ =
          Node.mk (.pos root (p ++ [i])) ::
            ChildIterator.collect f
              (ChildIterator.inc ⟨⟨⟨root, p, [i]⟩⟩, false⟩) := by
        simp [ChildIterator.collect, ChildIterator.deref,
          Cursor.getCurrentNode, ts_tree_cursor_current_node]
      rw [hstep]
      by_cases hnext : i + 1 < t.children.length
      · have hinc : ChildIterator.inc ⟨⟨⟨root, p, [i]⟩⟩, false⟩ =
            ⟨⟨⟨root, p, [i + 1]⟩⟩, false⟩ := by
          simp [ChildIterator.inc, Cursor.gotoNextSibling,
            ts_tree_cursor_goto_next_sibling, hcc, hnext]
        rw [hinc, ih (i + 1) hnext (by omega)]
        have hr : t.children.length - i = (t.children.length - (i + 1)) + 1 := by
          omega
        rw [hr, List.range'_succ]
        simp
      · have hinc : ChildIterator.inc ⟨⟨⟨root, p, [i]⟩⟩, false⟩ =
            ⟨⟨⟨root, p, [i]⟩⟩, true⟩ := by
          simp [ChildIterator.inc, Cursor.gotoNextSibling,
            ts_tree_cursor_goto_next_sibling, hcc, hnext]
        rw [hinc, collect_atEnd f _ rfl]
        have hr : t.children.length - i = 1 := by omega
        rw [hr, List.range'_succ]
        simp

/-- Claim C3: iterating a node's children through the Children adaptor
yields exactly the sequence getChild(0), ..., getChild(k-1) where k is
getNumChildren — all children, not only named ones — for any unrolling
bound covering all k children. -/
theorem C3_children_adaptor_eq_spec (root : STree) (p : List Nat) (t : STree)
    (fuel : Nat) (hsub : subtreeAt p root = some t)
    (hfuel : t.children.length ≤ fuel) :
    Children.toList ⟨⟨.pos root p⟩⟩ fuel =
      some (specChildSequence ⟨.pos root p⟩) := by
  have hcc : childCountAt root p = t.children.length := by
    simp [childCountAt, hsub]
  have hnum : Node.getNumChildren ⟨.pos root p⟩ = t.children.length := by
    simp [Node.getNumChildren, ts_node_child_count, hcc]
  by_cases h0 : 0 < t.children.length
  · have hinit : ChildIterator.init ⟨.pos root p⟩ =
        some ⟨⟨⟨root, p, [0]⟩⟩, false⟩ := by
      simp [ChildIterator.init, Node.getCursor, ts_tree_cursor_new,
        Cursor.gotoFirstChild, ts_tree_cursor_goto_first_child, hcc, h0]
    simp only [Children.toList, hinit, Option.map_some']
    rw [collect_sibling_run root p t hsub fuel 0 h0 (by omega)]
    rw [Nat.sub_zero]
    unfold specChildSequence
    rw [hnum, List.range_eq_range']
    congr 1
    apply List.map_congr_left
    intro j hj
    rw [← List.range_eq_range'] at hj
    have hjlen : j < t.children.length := List.mem_range.mp hj
    simp [Node.getChild, ts_node_child, hcc, hjlen]
  · have hz : t.children.length = 0 := by omega
    have hinit : ChildIterator.init ⟨.pos root p⟩ =
        some ⟨⟨⟨root, p, []⟩⟩, true⟩ := by
      simp [ChildIterator.init, Node.getCursor, ts_tree_cursor_new,
        Cursor.gotoFirstChild, ts_tree_cursor_goto_first_child, hcc, hz]
    simp [Children.toList, hinit, collect_atEnd fuel ⟨⟨⟨root, p, []⟩⟩, true⟩ rfl,
      specChildSequence, hnum, hz]

/-- Witness for C3 on the demo tree: fuel 2 covers both children. -/
theorem C3_children_adaptor_eq_spec_witness :
    Children.toList ⟨demoRootNode⟩ 2 = some (specChildSequence demoRootNode) :=
  C3_children_adaptor_eq_spec demoTree [] demoTree 2 rfl (by decide)

end ts
